import Mathlib

/-!
# TorneoExpress — verification of the core scorekeeping logic

Shallow embedding of the tournament scorekeeping backend (`src/index.js`):
the player-ledger store (`tablaCollection`), the match history
(`historialCollection`), the legacy match recorder (`POST /registrar-partida`),
the undo and bulk-delete reversal operations (`POST /deshacer`,
`POST /eliminar-multiples`), the tiered ranking computation
(`GET /api/torneos/tabla/:id` and the `/tabla` HTML routes), the mobile-API
match recorder (`POST /api/partidos/registrar-manual`) and the admin
statistics recalculation (`GET /api/admin/recalcular-stats/:torneoId`).

MongoDB documents are modelled as association lists from string ids to stat
records; `$inc` on a missing numeric field behaves as increment-from-0, which
the model realises by storing total stat records with explicit zero defaults.
Machine-level JS numbers are modelled as `Int` (the stats fit far below 2^53,
where JS integer arithmetic is exact).
-/

namespace Torneo

/-- A value submitted for a score field of an HTML form or JSON body.
`num n` models a string that JS `isNaN` accepts as numeric and whose
numeric value is the integer `n`; `nonNum` models a string rejected by
`isNaN` (e.g. letters). -/
inductive Marcador where
  | num (n : Int)
  | nonNum
deriving DecidableEq, Repr

/-- JS `isNaN(x)` on a submitted score: true exactly when the value is not
numeric. -/
def Marcador.isNotNumeric : Marcador → Bool
  | .num _ => false
  | .nonNum => true

/-- JS `parseInt(x)` on a submitted integer-numeral score (only reached in the
source after the `isNaN` guard, so the `nonNum` case is never used there; we
let it be 0, matching the `parseInt(x) || 0` idiom of the mobile API). -/
def Marcador.toInt : Marcador → Int
  | .num n => n
  | .nonNum => 0

/-- Generic lookup in a Mongo-collection model (first document whose `_id`
matches); `d` is the default used when the document or field is absent
(Mongo `$inc` semantics treat a missing field as 0). -/
def lookupD {β : Type} : List (String × β) → String → β → β
  | [], _, d => d
  | (k, v) :: rest, id, d => if k = id then v else lookupD rest id d

/-- Whether a document with the given `_id` exists. -/
def hasKey {β : Type} : List (String × β) → String → Bool
  | [], _ => false
  | (k, _) :: rest, id => k = id || hasKey rest id

/-- `updateOne` with `upsert: true`: update the first matching document, or
append a fresh one obtained by applying the update to the all-defaults
document `d`. -/
def updUpsert {β : Type} : List (String × β) → String → (β → β) → β → List (String × β)
  | [], id, f, d => [(id, f d)]
  | (k, v) :: rest, id, f, d =>
      if k = id then (k, f v) :: rest else (k, v) :: updUpsert rest id f d

/-- `updateOne` without upsert: update the first matching document, no-op if
it is missing. -/
def updFirst {β : Type} : List (String × β) → String → (β → β) → List (String × β)
  | [], _, _ => []
  | (k, v) :: rest, id, f =>
      if k = id then (k, f v) :: rest else (k, v) :: updFirst rest id f

/-- Cumulative ledger stats of one player in `tablaCollection` (legacy
single-tournament scheme): points, wins, games played, total carambolas. -/
structure Stats where
  puntos : Int
  ganadas : Int
  partidasJugadas : Int
  totalCarambolas : Int
deriving DecidableEq, Repr

/-- The all-zero stats record: the value every `$inc` starts from on a
missing document/field. -/
def Stats.zero : Stats := ⟨0, 0, 0, 0⟩

/-- The player ledger (`tablaCollection`), keyed by player name (`_id`). -/
abbrev Tabla := List (String × Stats)

/-- Ledger stats of a player, with Mongo's missing-field-as-0 reading. -/
def getStats (t : Tabla) (id : String) : Stats := lookupD t id Stats.zero

/-- One document of `historialCollection`: winner, loser, their submitted
scores (stored raw, as submitted), a generated id and the insertion
timestamp. -/
structure Partida where
  pid : Nat
  ganador : String
  marcadorGanador : Marcador
  perdedor : String
  marcadorPerdedor : Marcador
  fecha : Nat
deriving DecidableEq, Repr

/-- The match history collection. -/
abbrev Historial := List Partida

/-- The persistent state touched by the legacy routes. -/
structure LegacyState where
  tabla : Tabla
  historial : Historial
deriving DecidableEq, Repr

/-- The `$or` filter of the rematch-cap count: a history document is a prior
encounter of the (unordered) pair whichever of the two won it. -/
def esEnfrentamiento (g p : String) (r : Partida) : Bool :=
  (r.ganador = g && r.perdedor = p) || (r.ganador = p && r.perdedor = g)

/-- `countDocuments` of prior encounters between the submitted pair
(src/index.js lines 972-977). -/
def enfrentamientos (h : Historial) (g p : String) : Nat :=
  (h.filter (esEnfrentamiento g p)).length

/-- The four possible responses of `POST /registrar-partida`. -/
inductive RegResp where
  | ok
  | errMarcador
  | errMismoJugador
  | errLimite
deriving DecidableEq, Repr

/-- The winner's `$inc` of `POST /registrar-partida` (lines 988-995):
puntos +3, ganadas +1, totalCarambolas +parseInt(mar1), partidasJugadas +1. -/
def incGanador (m : Marcador) (s : Stats) : Stats :=
  { s with puntos := s.puntos + 3, ganadas := s.ganadas + 1,
           totalCarambolas := s.totalCarambolas + m.toInt,
           partidasJugadas := s.partidasJugadas + 1 }

/-- The loser's `$inc` (lines 998-1005): puntos +1,
totalCarambolas +parseInt(mar2), partidasJugadas +1; `ganadas` untouched. -/
def incPerdedor (m : Marcador) (s : Stats) : Stats :=
  { s with puntos := s.puntos + 1,
           totalCarambolas := s.totalCarambolas + m.toInt,
           partidasJugadas := s.partidasJugadas + 1 }

/-- `POST /registrar-partida` (src/index.js lines 960-1020): validates the
scores (`isNaN`), then self-match, then the rematch cap; on success upserts
both ledgers and appends one history document.  `newId` is the generated
`_id` of the inserted document and `fecha` the clock value of `new Date()`,
passed explicitly. -/
def registrarPartida (s : LegacyState) (ganador perdedor : String)
    (mar1 mar2 : Marcador) (newId fecha : Nat) : RegResp × LegacyState :=
  if mar1.isNotNumeric || mar2.isNotNumeric then (.errMarcador, s)
  else if ganador = perdedor then (.errMismoJugador, s)
  else if 2 ≤ enfrentamientos s.historial ganador perdedor then (.errLimite, s)
  else
    let t1 := updUpsert s.tabla ganador (incGanador mar1) Stats.zero
    let t2 := updUpsert t1 perdedor (incPerdedor mar2) Stats.zero
    (.ok, ⟨t2, s.historial ++ [⟨newId, ganador, mar1, perdedor, mar2, fecha⟩]⟩)

/-- `findOne({}, { sort: { fecha: -1 } })`: the history document with the
largest timestamp (ties resolved towards the later list element, which is
irrelevant in the theorems below: they assume a strictly latest record). -/
def mostRecent : Historial → Option Partida
  | [] => none
  | r :: rs =>
      match mostRecent rs with
      | none => some r
      | some m => if r.fecha < m.fecha then some m else some r

/-- The winner-side reversal `$inc` used by `/deshacer`, `deshacerPartida`
and `/eliminar-multiples`: puntos -3, ganadas -1, partidasJugadas -1,
totalCarambolas -marcadorGanador (the stored score; stored numeric strings
are truthy so the `|| 0` guard is the identity on them). -/
def decGanador (m : Marcador) (s : Stats) : Stats :=
  { s with puntos := s.puntos - 3, ganadas := s.ganadas - 1,
           partidasJugadas := s.partidasJugadas - 1,
           totalCarambolas := s.totalCarambolas - m.toInt }

/-- The loser-side reversal `$inc`: puntos -1, partidasJugadas -1,
totalCarambolas -marcadorPerdedor. -/
def decPerdedor (m : Marcador) (s : Stats) : Stats :=
  { s with puntos := s.puntos - 1,
           partidasJugadas := s.partidasJugadas - 1,
           totalCarambolas := s.totalCarambolas - m.toInt }

/-- `deleteOne({ _id: id })`: remove the (first) document with that id. -/
def deleteById : Historial → Nat → Historial
  | [], _ => []
  | r :: rs, i => if r.pid = i then rs else r :: deleteById rs i

/-- The shared reversal primitive (loop body of `/eliminar-multiples`, lines
893-908, and the body of `/deshacer` lines 1027-1044): subtract the recorded
deltas from both referenced ledgers (no upsert: a missing ledger is silently
skipped) and delete the history document. -/
def reverseOne (s : LegacyState) (r : Partida) : LegacyState :=
  let t1 := updFirst s.tabla r.ganador (decGanador r.marcadorGanador)
  let t2 := updFirst t1 r.perdedor (decPerdedor r.marcadorPerdedor)
  ⟨t2, deleteById s.historial r.pid⟩

/-- `POST /deshacer` (lines 1023-1047): reverse the most recent history
document; no-op when the history is empty. -/
def deshacer (s : LegacyState) : LegacyState :=
  match mostRecent s.historial with
  | none => s
  | some u => reverseOne s u

/-- One iteration of the `/eliminar-multiples` loop: look the id up; if the
document is missing, skip it and continue with the remaining ids. -/
def eliminarStep (s : LegacyState) (i : Nat) : LegacyState :=
  match (s.historial.find? (fun r => r.pid = i)) with
  | none => s
  | some r => reverseOne s r

/-- `POST /eliminar-multiples` (lines 876-923): process each submitted id in
order; the success page reports `idsPartidas.length` as the number of
deleted records, returned here as the second component. -/
def eliminarMultiples (s : LegacyState) (ids : List Nat) : LegacyState × Nat :=
  (ids.foldl eliminarStep s, ids.length)

/-- Observation (not computed by the route): how many of the submitted ids
actually had a document at processing time (were reversed) and how many were
missing (were skipped), following the same sequential processing. -/
def elimCounts : LegacyState → List Nat → Nat × Nat
  | _, [] => (0, 0)
  | s, i :: is =>
      match (s.historial.find? (fun r => r.pid = i)) with
      | none => let c := elimCounts s is; (c.1, c.2 + 1)
      | some r => let c := elimCounts (reverseOne s r) is; (c.1 + 1, c.2)

/-! ## Ranking engine (`GET /api/torneos/tabla/:id`, lines 425-483) -/

/-- One participant of a tournament (`participacionesCollection` document):
display name and stats. The model covers the standard shape where the
`stats` subobject and its fields are present, so the `|| 0` defaults of the
route are identities. -/
structure Participante where
  nombre : String
  stats : Stats
deriving DecidableEq, Repr

/-- The `ordenarPorPuntos` comparator (lines 440-445) as a strict precedence
test: `antesQue a b` is true when the comparator orders `a` strictly before
`b` (returns a negative number) — points descending, ties by wins
descending. -/
def antesQue (a b : Participante) : Bool :=
  if a.stats.puntos = b.stats.puntos then decide (b.stats.ganadas < a.stats.ganadas)
  else decide (b.stats.puntos < a.stats.puntos)

/-- Insert `x` behind every already-placed element it does not strictly
precede: the position a stable sort gives to `x`. -/
def insertAntes (x : Participante) : List Participante → List Participante
  | [] => [x]
  | y :: ys => if antesQue x y then x :: y :: ys else y :: insertAntes x ys

/-- `Array.prototype.sort(ordenarPorPuntos)`: JS sort is stable (ES2019) and
`ordenarPorPuntos` induces a strict weak order, for which every stable sort
produces the same sequence; this left-to-right stable insertion sort
computes it. -/
def sortPorPuntos (l : List Participante) : List Participante :=
  l.foldl (fun acc x => insertAntes x acc) []

/-- Per-tournament rules as stored in `torneo.reglas` (threshold of games
played, top qualification slots, replacement slots). -/
structure Reglas where
  limite_partidas : Nat
  top_clasificados : Nat
  reemplazos : Nat
deriving DecidableEq, Repr

/-- JS `v || d` on a stored number: the default applies exactly when the
stored value is falsy, i.e. 0 for a `Nat`-valued field. -/
def jsOr (v d : Nat) : Nat := if v = 0 then d else v

/-- `participantes.filter(p => (p.stats?.partidasJugadas || 0) >= limite)`. -/
def elegiblesDe (ps : List Participante) (limite : Nat) : List Participante :=
  ps.filter (fun p => (limite : Int) ≤ p.stats.partidasJugadas)

/-- `participantes.filter(p => (p.stats?.partidasJugadas || 0) < limite)`. -/
def restoDe (ps : List Participante) (limite : Nat) : List Participante :=
  ps.filter (fun p => p.stats.partidasJugadas < (limite : Int))

/-- `elegibles.slice(0, corte)` after sorting: the Qualified group. -/
def grupoClasificadosDe (ps : List Participante) (reglas : Reglas) : List Participante :=
  (sortPorPuntos (elegiblesDe ps (jsOr reglas.limite_partidas 32))).take
    (jsOr reglas.top_clasificados 8)

/-- `elegibles.slice(corte, corte + rep)`: the Replacement group. -/
def grupoReemplazosDe (ps : List Participante) (reglas : Reglas) : List Participante :=
  (((sortPorPuntos (elegiblesDe ps (jsOr reglas.limite_partidas 32)))).drop
    (jsOr reglas.top_clasificados 8)).take (jsOr reglas.reemplazos 2)

/-- `elegibles.slice(corte + rep)`: eligible entries beyond both groups. -/
def grupoSobrantesDe (ps : List Participante) (reglas : Reglas) : List Participante :=
  (sortPorPuntos (elegiblesDe ps (jsOr reglas.limite_partidas 32))).drop
    (jsOr reglas.top_clasificados 8 + jsOr reglas.reemplazos 2)

/-- `[...grupoClasificados, ...grupoReemplazos, ...grupoSobrantes, ...resto]`
(line 458): the ineligible players follow the leftover eligibles, each side
sorted separately — there is no joint re-sort in this route. -/
def rankingFinalDe (ps : List Participante) (reglas : Reglas) : List Participante :=
  grupoClasificadosDe ps reglas ++ grupoReemplazosDe ps reglas ++
    grupoSobrantesDe ps reglas ++ sortPorPuntos (restoDe ps (jsOr reglas.limite_partidas 32))

/-- One row of the JSON ranking response (lines 461-472).  The derived
`promedio` string (float `toFixed(2)`) is outside the model; the claims do
not mention it. -/
structure RankedRow where
  posicion : Nat
  nombre : String
  puntos : Int
  jugadas : Int
  ganadas : Int
  esClasificado : Bool
  esReemplazo : Bool
deriving DecidableEq, Repr

/-- The `rankingFinal.map((p, index) => ...)` row builder: 1-based position,
and the positional tier tags `index < corte` / `corte <= index < corte+rep`. -/
def toRows (ranking : List Participante) (corte rep : Nat) : List RankedRow :=
  ranking.enum.map fun ip =>
    { posicion := ip.1 + 1, nombre := ip.2.nombre, puntos := ip.2.stats.puntos,
      jugadas := ip.2.stats.partidasJugadas, ganadas := ip.2.stats.ganadas,
      esClasificado := decide (ip.1 < corte),
      esReemplazo := decide (corte ≤ ip.1 ∧ ip.1 < corte + rep) }

/-- The ranking part of the `GET /api/torneos/tabla/:id` response. -/
def computeTabla (ps : List Participante) (reglas : Reglas) : List RankedRow :=
  toRows (rankingFinalDe ps reglas)
    (jsOr reglas.top_clasificados 8) (jsOr reglas.reemplazos 2)

/-- The tier of a row as named by the spec, read off the response tags. -/
inductive Tier where
  | qualified
  | replacement
  | remainder
deriving DecidableEq, Repr

/-- Tier label of a response row. -/
def RankedRow.tier (r : RankedRow) : Tier :=
  if r.esClasificado then .qualified
  else if r.esReemplazo then .replacement
  else .remainder

/-- Modelled from the spec claim (C1 wording): identical pipeline except that
the Remainder tier is formed from the leftover eligible entries together
with the entirety of the ineligible entries, re-sorted jointly by the same
comparator (this is what the second `/tabla` snapshot, lines 1867-1877,
does — but not the API route). -/
def computeTablaSpecC1 (ps : List Participante) (reglas : Reglas) : List RankedRow :=
  toRows
    (grupoClasificadosDe ps reglas ++ grupoReemplazosDe ps reglas ++
      sortPorPuntos (grupoSobrantesDe ps reglas ++ restoDe ps (jsOr reglas.limite_partidas 32)))
    (jsOr reglas.top_clasificados 8) (jsOr reglas.reemplazos 2)

/-- Modelled from the amended claim wording: partition the players by the
threshold, sort each side by the comparator, slice the eligible side into
Qualified / Replacement / leftovers, and append the sorted ineligible side
after the leftovers without a joint re-sort; positions are 1-based over the
concatenation. -/
def computeTablaSpecAmended (ps : List Participante) (reglas : Reglas) : List RankedRow :=
  let limite := jsOr reglas.limite_partidas 32
  let corte := jsOr reglas.top_clasificados 8
  let rep := jsOr reglas.reemplazos 2
  let pr := ps.partition (fun p => (limite : Int) ≤ p.stats.partidasJugadas)
  let es := sortPorPuntos pr.1
  let rs := sortPorPuntos pr.2
  toRows (es.take corte ++ (es.drop corte).take rep ++ es.drop (corte + rep) ++ rs) corte rep

/-! ## Mobile-API recorder (`POST /api/partidos/registrar-manual`,
lines 348-418) and admin recalculation
(`GET /api/admin/recalcular-stats/:torneoId`, lines 1360-1415) -/

/-- Stats of one entry of `torneo.jugadores_inscritos` in the
multi-tournament scheme. -/
structure TStats where
  puntos : Int
  carambolas : Int
  partidosJugados : Int
  victorias : Int
  derrotas : Int
deriving DecidableEq, Repr

/-- The zeroed stats the recalculation starts every enrolled player from. -/
def TStats.zero : TStats := ⟨0, 0, 0, 0, 0⟩

/-- The enrolled players of one tournament, keyed by player id. -/
abbrev Inscritos := List (String × TStats)

/-- One document of `historialCollection` inserted by the mobile API:
both player ids, the parsed scores (`parseInt(x) || 0`, stored as numbers at
line 372) and the winner id, `null` on a tie.  The `torneo_id`, `fecha` and
`tipo` fields play no role in the claims and are omitted (single-tournament
scope). -/
structure PartidaTorneo where
  jugador1 : String
  jugador2 : String
  puntaje1 : Int
  puntaje2 : Int
  ganadorId : Option String
deriving DecidableEq, Repr

/-- A request body for `POST /api/partidos/registrar-manual`. -/
structure SolicitudManual where
  torneoId : String
  jugador1Id : String
  jugador2Id : String
  puntaje1 : Marcador
  puntaje2 : Marcador
deriving DecidableEq, Repr

/-- The possible responses of the mobile-API recorder; note there is no
rematch-limit response: the route performs no prior-encounter check. -/
inductive ManualResp where
  | ok
  | errMismoJugador
  | errFaltanDatos
deriving DecidableEq, Repr

/-- `parseInt(x) || 0` of the mobile API: a non-numeric value parses to NaN,
which `|| 0` turns into 0. -/
def jsParseOrZero (m : Marcador) : Int := m.toInt

/-- The inner `actualizarJugador` helper (lines 383-396): positional `$inc`
on the matching `jugadores_inscritos` entry — a no-op when the player is not
enrolled (no upsert). -/
def actualizarJugador (t : Inscritos) (idJugador : String)
    (puntosGanados carambolasHechas : Int) (esGanador : Bool) : Inscritos :=
  updFirst t idJugador (fun s =>
    { s with partidosJugados := s.partidosJugados + 1,
             puntos := s.puntos + puntosGanados,
             carambolas := s.carambolas + carambolasHechas,
             victorias := s.victorias + (if esGanador then 1 else 0),
             derrotas := s.derrotas + (if esGanador then 0 else 1) })

/-- `POST /api/partidos/registrar-manual` (lines 348-418): self-match and
missing-data validation only, then one history insert and the two
incremental updates; ties (`ganadorId = null`) award each player 1 point,
1 game played and 1 loss. -/
def registrarManual (torneo : Inscritos) (hist : List PartidaTorneo)
    (req : SolicitudManual) : ManualResp × Inscritos × List PartidaTorneo :=
  if req.jugador1Id = req.jugador2Id then (.errMismoJugador, torneo, hist)
  else if req.torneoId = "" || req.jugador1Id = "" || req.jugador2Id = "" then
    (.errFaltanDatos, torneo, hist)
  else
    let p1 := jsParseOrZero req.puntaje1
    let p2 := jsParseOrZero req.puntaje2
    let ganadorId : Option String :=
      if p2 < p1 then some req.jugador1Id
      else if p1 < p2 then some req.jugador2Id
      else none
    let hist2 := hist ++ [⟨req.jugador1Id, req.jugador2Id, p1, p2, ganadorId⟩]
    match ganadorId with
    | some gid =>
        let t1 := actualizarJugador torneo req.jugador1Id
          (if req.jugador1Id = gid then 3 else 1) p1 (req.jugador1Id = gid)
        let t2 := actualizarJugador t1 req.jugador2Id
          (if req.jugador2Id = gid then 3 else 1) p2 (req.jugador2Id = gid)
        (.ok, t2, hist2)
    | none =>
        let t1 := actualizarJugador torneo req.jugador1Id 1 p1 false
        let t2 := actualizarJugador t1 req.jugador2Id 1 p2 false
        (.ok, t2, hist2)

/-- Replay of one stored match by the recalculation route (lines 1375-1415):
strict win-or-lose logic; a match whose two scores are equal is skipped, and
a match either of whose players is not in the enrolled-stats object is
skipped entirely. -/
def recalcStep (stats : Inscritos) (p : PartidaTorneo) : Inscritos :=
  if hasKey stats p.jugador1 && hasKey stats p.jugador2 then
    if p.puntaje2 < p.puntaje1 then
      updFirst
        (updFirst stats p.jugador1 (fun s =>
          { s with partidosJugados := s.partidosJugados + 1,
                   carambolas := s.carambolas + p.puntaje1,
                   victorias := s.victorias + 1,
                   puntos := s.puntos + 3 }))
        p.jugador2 (fun s =>
          { s with partidosJugados := s.partidosJugados + 1,
                   carambolas := s.carambolas + p.puntaje2,
                   derrotas := s.derrotas + 1,
                   puntos := s.puntos + 1 })
    else if p.puntaje1 < p.puntaje2 then
      updFirst
        (updFirst stats p.jugador2 (fun s =>
          { s with partidosJugados := s.partidosJugados + 1,
                   carambolas := s.carambolas + p.puntaje2,
                   victorias := s.victorias + 1,
                   puntos := s.puntos + 3 }))
        p.jugador1 (fun s =>
          { s with partidosJugados := s.partidosJugados + 1,
                   carambolas := s.carambolas + p.puntaje1,
                   derrotas := s.derrotas + 1,
                   puntos := s.puntos + 1 })
    else stats
  else stats

/-- The zeroed stats object the recalculation builds from the currently
enrolled players (lines 1360-1372). -/
def zeroedDe (t : Inscritos) : Inscritos := t.map (fun kv => (kv.1, TStats.zero))

/-- The per-player stats computed by
`GET /api/admin/recalcular-stats/:torneoId` (lines 1375-1415): zero every
enrolled player, then replay the stored history. (The route then sorts this
list and stores it; the per-player values compared here are unaffected.) -/
def recalcStats (t : Inscritos) (hist : List PartidaTorneo) : Inscritos :=
  hist.foldl recalcStep (zeroedDe t)

/-- A sequence of mobile-API submissions applied in order, each one acting
on the state the previous one left (failed submissions leave the state
unchanged and store nothing). -/
def runManual (st : Inscritos × List PartidaTorneo) (subs : List SolicitudManual) :
    Inscritos × List PartidaTorneo :=
  subs.foldl (fun st sub => (registrarManual st.1 st.2 sub).2) st

/-- A tournament roster in which every enrolled player starts from zeroed
stats. -/
def zeroRoster (ids : List String) : Inscritos := ids.map (fun i => (i, TStats.zero))

/-! ## Store lemmas -/

theorem lookupD_updUpsert_self {β : Type} (l : List (String × β)) (a : String)
    (f : β → β) (d : β) : lookupD (updUpsert l a f d) a d = f (lookupD l a d) := by
  induction l with
  | nil => simp [updUpsert, lookupD]
  | cons hd tl ih =>
      obtain ⟨k, v⟩ := hd
      by_cases h : k = a
      · simp [updUpsert, lookupD, h]
      · simp [updUpsert, lookupD, h, ih]

theorem lookupD_updUpsert_ne {β : Type} (l : List (String × β)) (a b : String)
    (f : β → β) (d : β) (h : a ≠ b) :
    lookupD (updUpsert l a f d) b d = lookupD l b d := by
  induction l with
  | nil => simp [updUpsert, lookupD, h]
  | cons hd tl ih =>
      obtain ⟨k, v⟩ := hd
      by_cases hk : k = a
      · subst hk; simp [updUpsert, lookupD, h]
      · simp [updUpsert, lookupD, hk, ih]

theorem lookupD_updFirst_self {β : Type} (l : List (String × β)) (a : String)
    (f : β → β) (d : β) (h : hasKey l a = true) :
    lookupD (updFirst l a f) a d = f (lookupD l a d) := by
  induction l with
  | nil => simp [hasKey] at h
  | cons hd tl ih =>
      obtain ⟨k, v⟩ := hd
      by_cases hk : k = a
      · simp [updFirst, lookupD, hk]
      · simp [hasKey, hk] at h
        simp [updFirst, lookupD, hk, ih h]

theorem lookupD_updFirst_ne {β : Type} (l : List (String × β)) (a b : String)
    (f : β → β) (d : β) (h : a ≠ b) :
    lookupD (updFirst l a f) b d = lookupD l b d := by
  induction l with
  | nil => simp [updFirst]
  | cons hd tl ih =>
      obtain ⟨k, v⟩ := hd
      by_cases hk : k = a
      · subst hk; simp [updFirst, lookupD, h]
      · simp [updFirst, lookupD, hk, ih]

theorem lookupD_of_not_hasKey {β : Type} (l : List (String × β)) (a : String)
    (d : β) (h : hasKey l a = false) : lookupD l a d = d := by
  induction l with
  | nil => simp [lookupD]
  | cons hd tl ih =>
      obtain ⟨k, v⟩ := hd
      by_cases hk : k = a
      · simp [hasKey, hk] at h
      · simp [hasKey, hk] at h
        simp [lookupD, hk, ih h]

theorem hasKey_updUpsert_self {β : Type} (l : List (String × β)) (a : String)
    (f : β → β) (d : β) : hasKey (updUpsert l a f d) a = true := by
  induction l with
  | nil => simp [updUpsert, hasKey]
  | cons hd tl ih =>
      obtain ⟨k, v⟩ := hd
      by_cases hk : k = a
      · simp [updUpsert, hasKey, hk]
      · simp [updUpsert, hasKey, hk, ih]

theorem hasKey_updUpsert {β : Type} (l : List (String × β)) (a b : String)
    (f : β → β) (d : β) :
    hasKey (updUpsert l a f d) b = (hasKey l b || a = b) := by
  induction l with
  | nil => simp [updUpsert, hasKey, Bool.or_comm]
  | cons hd tl ih =>
      obtain ⟨k, v⟩ := hd
      by_cases hk : k = a
      · subst hk
        by_cases hb : k = b <;>
          simp [updUpsert, hasKey, hb, Bool.or_assoc, Bool.or_comm, Bool.or_left_comm]
      · simp [updUpsert, hasKey, hk, ih, Bool.or_assoc]

theorem hasKey_updUpsert_of {β : Type} (l : List (String × β)) (a b : String)
    (f : β → β) (d : β) (h : hasKey l b = true) :
    hasKey (updUpsert l a f d) b = true := by
  rw [hasKey_updUpsert, h]
  simp

theorem hasKey_updFirst {β : Type} (l : List (String × β)) (a : String)
    (f : β → β) (b : String) : hasKey (updFirst l a f) b = hasKey l b := by
  induction l with
  | nil => simp [updFirst]
  | cons hd tl ih =>
      obtain ⟨k, v⟩ := hd
      by_cases hk : k = a
      · simp [updFirst, hasKey, hk]
      · simp [updFirst, hasKey, hk, ih]

theorem mostRecent_append_latest (h : Historial) (nr : Partida)
    (hlt : ∀ r ∈ h, r.fecha < nr.fecha) :
    mostRecent (h ++ [nr]) = some nr := by
  induction h with
  | nil => simp [mostRecent]
  | cons r rs ih =>
      have hr : r.fecha < nr.fecha := hlt r (List.mem_cons_self r rs)
      have ih2 := ih (fun x hx => hlt x (List.mem_cons_of_mem r hx))
      simp [mostRecent, ih2, hr]

theorem deleteById_append_fresh (h : Historial) (nr : Partida)
    (hid : ∀ r ∈ h, r.pid ≠ nr.pid) :
    deleteById (h ++ [nr]) nr.pid = h := by
  induction h with
  | nil => simp [deleteById]
  | cons r rs ih =>
      have hr : r.pid ≠ nr.pid := hid r (List.mem_cons_self r rs)
      simp [deleteById, hr, ih (fun x hx => hid x (List.mem_cons_of_mem r hx))]

theorem decGanador_incGanador (m : Marcador) (s : Stats) :
    decGanador m (incGanador m s) = s := by
  cases s
  simp [decGanador, incGanador]

theorem decPerdedor_incPerdedor (m : Marcador) (s : Stats) :
    decPerdedor m (incPerdedor m s) = s := by
  cases s
  simp [decPerdedor, incPerdedor]

/-- Recording a match and then reversing the created record leaves every
ledger value as it was: the ledger-level core of the undo round trip. -/
theorem tabla_record_reverse (tab : Tabla) (g p : String) (m1 m2 : Marcador)
    (hgp : g ≠ p) (q : String) :
    getStats (updFirst (updFirst
        (updUpsert (updUpsert tab g (incGanador m1) Stats.zero) p (incPerdedor m2) Stats.zero)
        g (decGanador m1)) p (decPerdedor m2)) q = getStats tab q := by
  by_cases hqp : q = p
  · subst hqp
    have hkey : hasKey (updFirst
        (updUpsert (updUpsert tab g (incGanador m1) Stats.zero) q (incPerdedor m2) Stats.zero)
        g (decGanador m1)) q = true := by
      rw [hasKey_updFirst]
      exact hasKey_updUpsert_self _ _ _ _
    simp only [getStats]
    rw [lookupD_updFirst_self _ _ _ _ hkey, lookupD_updFirst_ne _ _ _ _ _ hgp,
      lookupD_updUpsert_self, lookupD_updUpsert_ne _ _ _ _ _ hgp,
      decPerdedor_incPerdedor]
  · by_cases hqg : q = g
    · subst hqg
      have hkey : hasKey (updUpsert (updUpsert tab q (incGanador m1) Stats.zero) p
          (incPerdedor m2) Stats.zero) q = true :=
        hasKey_updUpsert_of _ _ _ _ _ (hasKey_updUpsert_self _ _ _ _)
      have hpq : p ≠ q := fun h => hqp h.symm
      simp only [getStats]
      rw [lookupD_updFirst_ne _ _ _ _ _ hpq, lookupD_updFirst_self _ _ _ _ hkey,
        lookupD_updUpsert_ne _ _ _ _ _ hpq, lookupD_updUpsert_self,
        decGanador_incGanador]
    · have hpq : p ≠ q := fun h => hqp h.symm
      have hgq : g ≠ q := fun h => hqg h.symm
      simp only [getStats]
      rw [lookupD_updFirst_ne _ _ _ _ _ hpq, lookupD_updFirst_ne _ _ _ _ _ hgq,
        lookupD_updUpsert_ne _ _ _ _ _ hpq, lookupD_updUpsert_ne _ _ _ _ _ hgq]

/-- The success-path normal form of `registrarPartida`. -/
theorem registrarPartida_success (s : LegacyState) (g p : String) (n1 n2 : Int)
    (nid t : Nat) (hgp : g ≠ p) (hcnt : enfrentamientos s.historial g p < 2) :
    registrarPartida s g p (.num n1) (.num n2) nid t =
      (.ok, ⟨updUpsert (updUpsert s.tabla g (incGanador (.num n1)) Stats.zero) p
               (incPerdedor (.num n2)) Stats.zero,
             s.historial ++ [⟨nid, g, .num n1, p, .num n2, t⟩]⟩) := by
  have h1 : ¬(((Marcador.num n1).isNotNumeric || (Marcador.num n2).isNotNumeric) = true) := by
    simp [Marcador.isNotNumeric]
  have h3 : ¬(2 ≤ enfrentamientos s.historial g p) := by omega
  unfold registrarPartida
  rw [if_neg h1, if_neg hgp, if_neg h3]

/-- C2: recording a valid match (distinct players, numeric scores, under the
rematch cap; the created record carries a fresh id and a strictly latest
timestamp) and then immediately undoing restores every player's ledger
fields to their exact pre-match values and removes the new record, leaving
ledger and history as before. -/
theorem registrar_deshacer_roundtrip (s : LegacyState) (g p : String)
    (n1 n2 : Int) (nid t : Nat) (hgp : g ≠ p)
    (hcnt : enfrentamientos s.historial g p < 2)
    (hid : ∀ r ∈ s.historial, r.pid ≠ nid)
    (ht : ∀ r ∈ s.historial, r.fecha < t) :
    (registrarPartida s g p (.num n1) (.num n2) nid t).1 = .ok ∧
    (deshacer (registrarPartida s g p (.num n1) (.num n2) nid t).2).historial
      = s.historial ∧
    ∀ q, getStats (deshacer (registrarPartida s g p (.num n1) (.num n2) nid t).2).tabla q
      = getStats s.tabla q := by
  rw [registrarPartida_success s g p n1 n2 nid t hgp hcnt]
  have hmr : mostRecent (s.historial ++ [(⟨nid, g, .num n1, p, .num n2, t⟩ : Partida)])
      = some ⟨nid, g, .num n1, p, .num n2, t⟩ :=
    mostRecent_append_latest s.historial _ (fun r hr => ht r hr)
  have hdes : deshacer ⟨updUpsert (updUpsert s.tabla g (incGanador (.num n1)) Stats.zero) p
        (incPerdedor (.num n2)) Stats.zero,
      s.historial ++ [⟨nid, g, .num n1, p, .num n2, t⟩]⟩ =
      reverseOne ⟨updUpsert (updUpsert s.tabla g (incGanador (.num n1)) Stats.zero) p
          (incPerdedor (.num n2)) Stats.zero,
        s.historial ++ [⟨nid, g, .num n1, p, .num n2, t⟩]⟩
        ⟨nid, g, .num n1, p, .num n2, t⟩ := by
    unfold deshacer
    rw [hmr]
  refine ⟨rfl, ?_, ?_⟩
  · rw [hdes]
    exact deleteById_append_fresh s.historial _ (fun r hr => hid r hr)
  · intro q
    rw [hdes]
    exact tabla_record_reverse s.tabla g p (.num n1) (.num n2) hgp q

theorem registrar_deshacer_roundtrip_witness :
    (registrarPartida ⟨[], []⟩ "A" "B" (.num 30) (.num 12) 1 5).1 = .ok ∧
    (deshacer (registrarPartida ⟨[], []⟩ "A" "B" (.num 30) (.num 12) 1 5).2).historial = [] ∧
    getStats (deshacer (registrarPartida ⟨[], []⟩ "A" "B" (.num 30) (.num 12) 1 5).2).tabla "A"
      = getStats [] "A" := by
  have h := registrar_deshacer_roundtrip ⟨[], []⟩ "A" "B" 30 12 1 5 (by decide)
    (by decide) (by simp) (by simp)
  exact ⟨h.1, h.2.1, h.2.2 "A"⟩

/-- C4: on a valid submission, the winner's ledger gains 3 points, 1 win,
1 game and the winner's score in carambolas; the loser's gains 1 point,
1 game and their score with wins untouched; a ledger entry with exactly
these values is created for a player who had none (upsert); everyone else
is untouched; and exactly one history record with both scores and the given
timestamp is appended. -/
theorem registrarPartida_success_effects (s : LegacyState) (g p : String)
    (n1 n2 : Int) (nid t : Nat) (hgp : g ≠ p)
    (hcnt : enfrentamientos s.historial g p < 2) :
    (registrarPartida s g p (.num n1) (.num n2) nid t).1 = .ok ∧
    getStats (registrarPartida s g p (.num n1) (.num n2) nid t).2.tabla g
      = incGanador (.num n1) (getStats s.tabla g) ∧
    getStats (registrarPartida s g p (.num n1) (.num n2) nid t).2.tabla p
      = incPerdedor (.num n2) (getStats s.tabla p) ∧
    (∀ q, q ≠ g → q ≠ p →
        getStats (registrarPartida s g p (.num n1) (.num n2) nid t).2.tabla q
          = getStats s.tabla q) ∧
    hasKey (registrarPartida s g p (.num n1) (.num n2) nid t).2.tabla g = true ∧
    hasKey (registrarPartida s g p (.num n1) (.num n2) nid t).2.tabla p = true ∧
    (hasKey s.tabla g = false →
        getStats (registrarPartida s g p (.num n1) (.num n2) nid t).2.tabla g
          = incGanador (.num n1) Stats.zero) ∧
    (registrarPartida s g p (.num n1) (.num n2) nid t).2.historial
      = s.historial ++ [⟨nid, g, .num n1, p, .num n2, t⟩] := by
  rw [registrarPartida_success s g p n1 n2 nid t hgp hcnt]
  have hpg : p ≠ g := fun h => hgp h.symm
  have hg : getStats (updUpsert (updUpsert s.tabla g (incGanador (.num n1)) Stats.zero) p
      (incPerdedor (.num n2)) Stats.zero) g = incGanador (.num n1) (getStats s.tabla g) := by
    simp only [getStats]
    rw [lookupD_updUpsert_ne _ _ _ _ _ hpg, lookupD_updUpsert_self]
  refine ⟨rfl, hg, ?_, ?_, ?_, ?_, ?_, rfl⟩
  · simp only [getStats]
    rw [lookupD_updUpsert_self, lookupD_updUpsert_ne _ _ _ _ _ hgp]
  · intro q hqg hqp
    have hgq : g ≠ q := fun h => hqg h.symm
    have hpq : p ≠ q := fun h => hqp h.symm
    simp only [getStats]
    rw [lookupD_updUpsert_ne _ _ _ _ _ hpq, lookupD_updUpsert_ne _ _ _ _ _ hgq]
  · exact hasKey_updUpsert_of _ _ _ _ _ (hasKey_updUpsert_self _ _ _ _)
  · exact hasKey_updUpsert_self _ _ _ _
  · intro hnone
    rw [hg]
    simp only [getStats]
    rw [lookupD_of_not_hasKey _ _ _ hnone]

/-- C5 (amended): no ledger or history change happens when any precondition
fails; submitting equal identities always fails and produces no stat
change — with the self-match error when both scores are numeric, and with
the invalid-score error otherwise (the score check runs first). -/
theorem no_effect_on_failure (s : LegacyState) (g p : String) (m1 m2 : Marcador)
    (nid t : Nat) :
    ((registrarPartida s g p m1 m2 nid t).1 ≠ .ok →
        (registrarPartida s g p m1 m2 nid t).2 = s) ∧
    (g = p →
        (registrarPartida s g p m1 m2 nid t).1 ≠ .ok ∧
        (registrarPartida s g p m1 m2 nid t).2 = s ∧
        (m1.isNotNumeric = false → m2.isNotNumeric = false →
            (registrarPartida s g p m1 m2 nid t).1 = .errMismoJugador)) := by
  unfold registrarPartida
  split_ifs with h1 h2 h3 <;> simp_all
  intro _ hm1
  rcases h1 with h | h
  · rw [hm1] at h; cases h
  · exact h

/-- C5 counterexample: submitting equal identities together with a
non-numeric score fails with the invalid-score error, not the self-match
error — so equal identities do not always fail with the self-match error. -/
theorem selfmatch_error_precedence_cex :
    (registrarPartida ⟨[], []⟩ "A" "A" Marcador.nonNum (.num 0) 0 0).1 = .errMarcador ∧
    RegResp.errMarcador ≠ RegResp.errMismoJugador := by decide

theorem no_effect_on_failure_witness :
    (registrarPartida ⟨[], []⟩ "A" "A" Marcador.nonNum Marcador.nonNum 0 0).2 = ⟨[], []⟩ ∧
    (registrarPartida ⟨[], []⟩ "A" "A" Marcador.nonNum Marcador.nonNum 0 0).1 ≠ .ok := by
  have h := no_effect_on_failure ⟨[], []⟩ "A" "A" Marcador.nonNum Marcador.nonNum 0 0
  exact ⟨(h.2 rfl).2.1, (h.2 rfl).1⟩

/-- C6 (amended): the recorder rejects a submission with the invalid-score
error precisely when a submitted score is non-numeric (`isNaN`); numeric
values — including negative or fractional ones — pass the check.  When the
check fails nothing is recorded. -/
theorem invalid_score_iff_nonnumeric (s : LegacyState) (g p : String)
    (m1 m2 : Marcador) (nid t : Nat) :
    ((registrarPartida s g p m1 m2 nid t).1 = .errMarcador ↔
        (m1.isNotNumeric || m2.isNotNumeric) = true) ∧
    ((m1.isNotNumeric || m2.isNotNumeric) = true →
        (registrarPartida s g p m1 m2 nid t).2 = s) := by
  unfold registrarPartida
  split_ifs with h1 h2 h3 <;> simp_all

/-- C6 counterexample: a negative score is numeric, so the submission is
accepted and recorded instead of failing with the invalid-score error. -/
theorem negative_score_accepted_cex :
    (registrarPartida ⟨[], []⟩ "A" "B" (.num (-5)) (.num 12) 1 1).1 = .ok ∧
    (registrarPartida ⟨[], []⟩ "A" "B" (.num (-5)) (.num 12) 1 1).2.historial ≠ [] := by
  decide

theorem invalid_score_iff_nonnumeric_witness :
    (registrarPartida ⟨[], []⟩ "A" "B" Marcador.nonNum (.num 1) 0 0).1 = .errMarcador ∧
    (registrarPartida ⟨[], []⟩ "A" "B" Marcador.nonNum (.num 1) 0 0).2 = ⟨[], []⟩ := by
  have h := invalid_score_iff_nonnumeric ⟨[], []⟩ "A" "B" Marcador.nonNum (.num 1) 0 0
  exact ⟨h.1.mpr (by decide), h.2 (by decide)⟩

/-- The rematch-cap count is symmetric in the pair. -/
theorem enfrentamientos_comm (h : Historial) (g p : String) :
    enfrentamientos h g p = enfrentamientos h p g := by
  unfold enfrentamientos
  congr 1
  apply List.filter_congr
  intro r _
  unfold esEnfrentamiento
  rw [Bool.or_comm]

/-- C3 (amended): the legacy recorder `/registrar-partida` rejects a third
encounter of a pair with the rematch-limit error and stores nothing,
whichever of the two is passed as winner, and lets pairs with fewer than 2
prior encounters through; the mobile-API route `registrar-manual`, however,
performs no rematch check at all — a valid submission succeeds regardless
of the stored history. -/
theorem rematch_cap_legacy (s : LegacyState) (a b : String) (n1 n2 : Int)
    (nid t : Nat) (hab : a ≠ b) :
    (2 ≤ enfrentamientos s.historial a b →
        registrarPartida s a b (.num n1) (.num n2) nid t = (.errLimite, s) ∧
        registrarPartida s b a (.num n2) (.num n1) nid t = (.errLimite, s)) ∧
    (enfrentamientos s.historial a b < 2 →
        (registrarPartida s a b (.num n1) (.num n2) nid t).1 = .ok) ∧
    (∀ (tor : Inscritos) (hist : List PartidaTorneo) (req : SolicitudManual),
        req.jugador1Id ≠ req.jugador2Id → req.torneoId ≠ "" →
        req.jugador1Id ≠ "" → req.jugador2Id ≠ "" →
        (registrarManual tor hist req).1 = .ok) := by
  refine ⟨?_, ?_, ?_⟩
  · intro hcnt
    have hnum : ¬(((Marcador.num n1).isNotNumeric || (Marcador.num n2).isNotNumeric) = true) := by
      simp [Marcador.isNotNumeric]
    have hnum2 : ¬(((Marcador.num n2).isNotNumeric || (Marcador.num n1).isNotNumeric) = true) := by
      simp [Marcador.isNotNumeric]
    have hcnt2 : 2 ≤ enfrentamientos s.historial b a := by
      rw [enfrentamientos_comm]; exact hcnt
    constructor
    · unfold registrarPartida
      rw [if_neg hnum, if_neg hab, if_pos hcnt]
    · unfold registrarPartida
      rw [if_neg hnum2, if_neg (Ne.symm hab), if_pos hcnt2]
  · intro hcnt
    rw [registrarPartida_success s a b n1 n2 nid t hab hcnt]
  · intro tor hist req h1 h2 h3 h4
    by_cases hp : jsParseOrZero req.puntaje2 < jsParseOrZero req.puntaje1
    · simp [registrarManual, h1, h2, h3, h4, hp]
    · by_cases hq : jsParseOrZero req.puntaje1 < jsParseOrZero req.puntaje2
      · simp [registrarManual, h1, h2, h3, h4, hp, hq]
      · simp [registrarManual, h1, h2, h3, h4, hp, hq]

/-- C3 counterexample: with the pair already recorded twice (once in each
win order), a third mobile-API submission for the pair succeeds and stores
a third record, instead of failing with the rematch-limit error. -/
theorem manual_route_no_rematch_cap_cex :
    (registrarManual [("A", TStats.zero), ("B", TStats.zero)]
        [⟨"A", "B", 3, 1, some "A"⟩, ⟨"B", "A", 4, 2, some "B"⟩]
        ⟨"T", "A", "B", .num 7, .num 2⟩).1 = .ok ∧
    (registrarManual [("A", TStats.zero), ("B", TStats.zero)]
        [⟨"A", "B", 3, 1, some "A"⟩, ⟨"B", "A", 4, 2, some "B"⟩]
        ⟨"T", "A", "B", .num 7, .num 2⟩).2.2.length = 3 := by decide

theorem rematch_cap_legacy_witness :
    registrarPartida ⟨[], [⟨1, "A", .num 1, "B", .num 0, 1⟩,
        ⟨2, "B", .num 5, "A", .num 2, 2⟩]⟩ "A" "B" (.num 3) (.num 2) 9 9
      = (.errLimite, ⟨[], [⟨1, "A", .num 1, "B", .num 0, 1⟩,
          ⟨2, "B", .num 5, "A", .num 2, 2⟩]⟩) ∧
    registrarPartida ⟨[], [⟨1, "A", .num 1, "B", .num 0, 1⟩,
        ⟨2, "B", .num 5, "A", .num 2, 2⟩]⟩ "B" "A" (.num 2) (.num 3) 9 9
      = (.errLimite, ⟨[], [⟨1, "A", .num 1, "B", .num 0, 1⟩,
          ⟨2, "B", .num 5, "A", .num 2, 2⟩]⟩) := by
  have h := rematch_cap_legacy ⟨[], [⟨1, "A", .num 1, "B", .num 0, 1⟩,
      ⟨2, "B", .num 5, "A", .num 2, 2⟩]⟩ "A" "B" 3 2 9 9 (by decide)
  exact h.1 (by decide)

/-- C9 (amended): the bulk delete processes the submitted ids in order; an
id with no stored record is skipped without aborting the rest; an id whose
record is found has both referenced ledgers decremented by the record's
stored deltas (a missing ledger is silently skipped) and the record
deleted; but the route reports the total number of submitted ids as the
count of deleted records — it does not report reversed and skipped counts
separately. -/
theorem eliminarMultiples_behavior (s : LegacyState) (i : Nat) (ids : List Nat) :
    (s.historial.find? (fun r => r.pid = i) = none →
        (eliminarMultiples s (i :: ids)).1 = (eliminarMultiples s ids).1) ∧
    (∀ r, s.historial.find? (fun r => r.pid = i) = some r →
        (eliminarMultiples s (i :: ids)).1 = (eliminarMultiples (reverseOne s r) ids).1 ∧
        (reverseOne s r).historial = deleteById s.historial r.pid ∧
        (∀ q, q ≠ r.ganador → q ≠ r.perdedor →
            getStats (reverseOne s r).tabla q = getStats s.tabla q) ∧
        (r.ganador ≠ r.perdedor → hasKey s.tabla r.ganador = true →
            getStats (reverseOne s r).tabla r.ganador
              = decGanador r.marcadorGanador (getStats s.tabla r.ganador)) ∧
        (r.ganador ≠ r.perdedor → hasKey s.tabla r.perdedor = true →
            getStats (reverseOne s r).tabla r.perdedor
              = decPerdedor r.marcadorPerdedor (getStats s.tabla r.perdedor))) ∧
    (eliminarMultiples s (i :: ids)).2 = ids.length + 1 := by
  refine ⟨?_, ?_, ?_⟩
  · intro hnone
    simp [eliminarMultiples, eliminarStep, hnone]
  · intro r hr
    refine ⟨?_, rfl, ?_, ?_, ?_⟩
    · simp [eliminarMultiples, eliminarStep, hr]
    · intro q hqg hqp
      have h1 : r.ganador ≠ q := fun h => hqg h.symm
      have h2 : r.perdedor ≠ q := fun h => hqp h.symm
      simp only [reverseOne, getStats]
      rw [lookupD_updFirst_ne _ _ _ _ _ h2, lookupD_updFirst_ne _ _ _ _ _ h1]
    · intro hne hkey
      have h2 : r.perdedor ≠ r.ganador := fun h => hne h.symm
      simp only [reverseOne, getStats]
      rw [lookupD_updFirst_ne _ _ _ _ _ h2, lookupD_updFirst_self _ _ _ _ hkey]
    · intro hne hkey
      have hkey2 : hasKey (updFirst s.tabla r.ganador (decGanador r.marcadorGanador))
          r.perdedor = true := by rw [hasKey_updFirst]; exact hkey
      simp only [reverseOne, getStats]
      rw [lookupD_updFirst_self _ _ _ _ hkey2, lookupD_updFirst_ne _ _ _ _ _ hne]
  · simp [eliminarMultiples]

/-- C9 counterexample: submitting one existing and one missing id makes the
route report 2 deleted records while only 1 was reversed and 1 was
skipped — the reported number is the submitted count, not the reversed or
skipped count. -/
theorem bulk_delete_report_cex :
    (eliminarMultiples ⟨[("A", ⟨3, 1, 1, 10⟩), ("B", ⟨1, 0, 1, 7⟩)],
        [⟨1, "A", .num 10, "B", .num 7, 5⟩]⟩ [1, 99]).2 = 2 ∧
    elimCounts ⟨[("A", ⟨3, 1, 1, 10⟩), ("B", ⟨1, 0, 1, 7⟩)],
        [⟨1, "A", .num 10, "B", .num 7, 5⟩]⟩ [1, 99] = (1, 1) ∧
    (2 : Nat) ≠ 1 := by decide

theorem eliminarMultiples_behavior_witness :
    (eliminarMultiples ⟨[("A", ⟨3, 1, 1, 10⟩), ("B", ⟨1, 0, 1, 7⟩)],
        [⟨1, "A", .num 10, "B", .num 7, 5⟩]⟩ [1, 99]).1
      = (eliminarMultiples
          (reverseOne ⟨[("A", ⟨3, 1, 1, 10⟩), ("B", ⟨1, 0, 1, 7⟩)],
              [⟨1, "A", .num 10, "B", .num 7, 5⟩]⟩
            ⟨1, "A", .num 10, "B", .num 7, 5⟩) [99]).1 ∧
    getStats (reverseOne ⟨[("A", ⟨3, 1, 1, 10⟩), ("B", ⟨1, 0, 1, 7⟩)],
        [⟨1, "A", .num 10, "B", .num 7, 5⟩]⟩
      ⟨1, "A", .num 10, "B", .num 7, 5⟩).tabla "A"
      = decGanador (.num 10) (getStats [("A", ⟨3, 1, 1, 10⟩), ("B", ⟨1, 0, 1, 7⟩)] "A") := by
  have h := eliminarMultiples_behavior ⟨[("A", ⟨3, 1, 1, 10⟩), ("B", ⟨1, 0, 1, 7⟩)],
      [⟨1, "A", .num 10, "B", .num 7, 5⟩]⟩ 1 [99]
  have h2 := h.2.1 ⟨1, "A", .num 10, "B", .num 7, 5⟩ (by decide)
  exact ⟨h2.1, h2.2.2.2.1 (by decide) (by decide)⟩

theorem registrarPartida_success_effects_witness :
    (registrarPartida ⟨[], []⟩ "A" "B" (.num 30) (.num 12) 1 5).1 = .ok ∧
    getStats (registrarPartida ⟨[], []⟩ "A" "B" (.num 30) (.num 12) 1 5).2.tabla "A"
      = incGanador (.num 30) (getStats [] "A") ∧
    getStats (registrarPartida ⟨[], []⟩ "A" "B" (.num 30) (.num 12) 1 5).2.tabla "B"
      = incPerdedor (.num 12) (getStats [] "B") ∧
    (registrarPartida ⟨[], []⟩ "A" "B" (.num 30) (.num 12) 1 5).2.historial
      = [⟨1, "A", .num 30, "B", .num 12, 5⟩] := by
  have h := registrarPartida_success_effects ⟨[], []⟩ "A" "B" 30 12 1 5 (by decide) (by decide)
  exact ⟨h.1, h.2.1, h.2.2.1, h.2.2.2.2.2.2.2⟩

/-! ## Ranking lemmas -/

theorem length_insertAntes (x : Participante) (l : List Participante) :
    (insertAntes x l).length = l.length + 1 := by
  induction l with
  | nil => simp [insertAntes]
  | cons y ys ih =>
      by_cases h : antesQue x y = true
      · simp [insertAntes, h]
      · simp [insertAntes, h, ih]

theorem length_sortPorPuntos (l : List Participante) :
    (sortPorPuntos l).length = l.length := by
  suffices h : ∀ acc : List Participante,
      (l.foldl (fun acc x => insertAntes x acc) acc).length = l.length + acc.length by
    simpa [sortPorPuntos] using h []
  induction l with
  | nil => intro acc; simp
  | cons y ys ih =>
      intro acc
      simp only [List.foldl_cons]
      rw [ih (insertAntes y acc), length_insertAntes]
      simp only [List.length_cons]
      omega

theorem mem_insertAntes (a x : Participante) (l : List Participante) :
    a ∈ insertAntes x l ↔ a = x ∨ a ∈ l := by
  induction l with
  | nil => simp [insertAntes]
  | cons y ys ih =>
      by_cases h : antesQue x y = true
      · simp [insertAntes, h]
      · simp [insertAntes, h, ih]
        tauto

theorem mem_sortPorPuntos (a : Participante) (l : List Participante) :
    a ∈ sortPorPuntos l ↔ a ∈ l := by
  suffices h : ∀ acc : List Participante,
      a ∈ l.foldl (fun acc x => insertAntes x acc) acc ↔ a ∈ l ∨ a ∈ acc by
    simpa [sortPorPuntos] using h []
  induction l with
  | nil => intro acc; simp
  | cons y ys ih =>
      intro acc
      simp only [List.foldl_cons]
      rw [ih]
      simp [mem_insertAntes]
      tauto

theorem elegibles_resto_length (ps : List Participante) (limite : Nat) :
    (elegiblesDe ps limite).length + (restoDe ps limite).length = ps.length := by
  induction ps with
  | nil => simp [elegiblesDe, restoDe]
  | cons p tl ih =>
      by_cases h : ((limite : Int) ≤ p.stats.partidasJugadas)
      · have h2 : ¬(p.stats.partidasJugadas < (limite : Int)) := not_lt.mpr h
        simp only [elegiblesDe, restoDe] at ih ⊢
        simp [List.filter_cons, h, h2]
        omega
      · have h2 : p.stats.partidasJugadas < (limite : Int) := not_le.mp h
        simp only [elegiblesDe, restoDe] at ih ⊢
        simp [List.filter_cons, h, h2]
        omega

/-- C1 (amended): the ranking pipeline of the API route partitions the
players by the games-played threshold, sorts each side with the comparator,
slices the eligible side into the Qualified and Replacement groups, and
appends the sorted ineligible side after the leftover eligibles without a
joint re-sort; positions are 1-based over the concatenation and no player
is duplicated or dropped. -/
theorem ranking_matches_amended_spec (ps : List Participante) (reglas : Reglas) :
    computeTabla ps reglas = computeTablaSpecAmended ps reglas ∧
    (computeTabla ps reglas).length = ps.length := by
  have hpart : ps.partition
        (fun p => ((jsOr reglas.limite_partidas 32 : Nat) : Int) ≤ p.stats.partidasJugadas) =
      (elegiblesDe ps (jsOr reglas.limite_partidas 32),
       restoDe ps (jsOr reglas.limite_partidas 32)) := by
    rw [List.partition_eq_filter_filter]
    unfold elegiblesDe restoDe
    congr 1
    apply List.filter_congr
    intro x _
    simp only [Function.comp_apply]
    rw [← decide_not, decide_eq_decide]
    exact Int.not_le
  constructor
  · simp only [computeTabla, computeTablaSpecAmended, rankingFinalDe, grupoClasificadosDe,
      grupoReemplazosDe, grupoSobrantesDe, hpart]
  · have h1 : (computeTabla ps reglas).length = (rankingFinalDe ps reglas).length := by
      simp [computeTabla, toRows]
    rw [h1]
    unfold rankingFinalDe grupoClasificadosDe grupoReemplazosDe grupoSobrantesDe
    simp [length_sortPorPuntos]
    have := elegibles_resto_length ps (jsOr reglas.limite_partidas 32)
    omega

/-- C1 counterexample: with threshold 1, one qualification slot and one
replacement slot, the eligible leftover E3 (1 point) is placed before the
ineligible I1 (5 points) by the route, while the claimed joint re-sort of
the Remainder tier would place I1 first — the outputs differ. -/
theorem remainder_not_jointly_sorted_cex :
    computeTabla
        [⟨"E1", ⟨9, 0, 1, 0⟩⟩, ⟨"E2", ⟨8, 0, 1, 0⟩⟩, ⟨"E3", ⟨1, 0, 1, 0⟩⟩,
         ⟨"I1", ⟨5, 0, 0, 0⟩⟩] ⟨1, 1, 1⟩ ≠
      computeTablaSpecC1
        [⟨"E1", ⟨9, 0, 1, 0⟩⟩, ⟨"E2", ⟨8, 0, 1, 0⟩⟩, ⟨"E3", ⟨1, 0, 1, 0⟩⟩,
         ⟨"I1", ⟨5, 0, 0, 0⟩⟩] ⟨1, 1, 1⟩ := by decide

/-- C7 (amended): a player whose games played fall below the effective
threshold is never a member of the Qualified or Replacement groups (the
slices of the eligible partition), while a player at the threshold is in
the eligible partition.  (The positional response tags `esClasificado` /
`esReemplazo` are another matter — see the counterexample.) -/
theorem threshold_boundary_amended (ps : List Participante) (reglas : Reglas)
    (p : Participante) :
    (p.stats.partidasJugadas < ((jsOr reglas.limite_partidas 32 : Nat) : Int) →
        p ∉ grupoClasificadosDe ps reglas ∧ p ∉ grupoReemplazosDe ps reglas) ∧
    (((jsOr reglas.limite_partidas 32 : Nat) : Int) ≤ p.stats.partidasJugadas →
        p ∈ ps → p ∈ elegiblesDe ps (jsOr reglas.limite_partidas 32)) := by
  constructor
  · intro hlt
    have hmem : p ∉ elegiblesDe ps (jsOr reglas.limite_partidas 32) := by
      intro hmem
      have h2 := (List.mem_filter.mp hmem).2
      simp only [decide_eq_true_eq] at h2
      omega
    constructor
    · intro hc
      exact hmem ((mem_sortPorPuntos p _).mp (List.take_subset _ _ hc))
    · intro hc
      exact hmem
        ((mem_sortPorPuntos p _).mp (List.drop_subset _ _ (List.take_subset _ _ hc)))
  · intro hle hmem
    exact List.mem_filter.mpr ⟨hmem, by simpa using hle⟩

/-- C7 counterexample: a lone player with games played equal to threshold - 1
(1 game, threshold 2) is ineligible, yet the route's positional tag marks
the row `esClasificado` — the response tags a below-threshold player as
Qualified whenever fewer players are eligible than there are slots. -/
theorem threshold_boundary_tag_cex :
    (computeTabla [⟨"X", ⟨0, 0, 1, 0⟩⟩] ⟨2, 1, 1⟩).map RankedRow.tier = [Tier.qualified] ∧
    (1 : Int) < ((jsOr 2 32 : Nat) : Int) := by decide

theorem threshold_boundary_amended_witness :
    (Participante.mk "X" ⟨0, 0, 1, 0⟩ ∉ grupoClasificadosDe [⟨"X", ⟨0, 0, 1, 0⟩⟩] ⟨2, 1, 1⟩) ∧
    Participante.mk "Y" ⟨0, 0, 2, 0⟩ ∈ elegiblesDe [⟨"Y", ⟨0, 0, 2, 0⟩⟩] (jsOr 2 32) := by
  have h1 := threshold_boundary_amended [⟨"X", ⟨0, 0, 1, 0⟩⟩] ⟨2, 1, 1⟩ ⟨"X", ⟨0, 0, 1, 0⟩⟩
  have h2 := threshold_boundary_amended [⟨"Y", ⟨0, 0, 2, 0⟩⟩] ⟨2, 1, 1⟩ ⟨"Y", ⟨0, 0, 2, 0⟩⟩
  exact ⟨(h1.1 (by decide)).1, h2.2 (by decide) (by decide)⟩

/-- C8: for players P1(points 9, wins 3, games 3) and P2(points 3, wins 0,
games 3) under rules threshold 0, topSlots 1, replacementSlots 1, the
computed ranking is exactly P1 tagged Qualified at position 1 and P2 tagged
Replacement at position 2 (whatever their carambola totals). -/
theorem scenario_two_players_ranking (c1 c2 : Int) :
    (computeTabla [⟨"P1", ⟨9, 3, 3, c1⟩⟩, ⟨"P2", ⟨3, 0, 3, c2⟩⟩] ⟨0, 1, 1⟩).map
        (fun r => (r.posicion, r.nombre, r.tier))
      = [(1, "P1", Tier.qualified), (2, "P2", Tier.replacement)] := rfl

/-! ## Recalculation-vs-incremental lemmas -/

theorem updFirst_congr {β : Type} (l : List (String × β)) (a : String)
    (f g : β → β) (h : ∀ x, f x = g x) : updFirst l a f = updFirst l a g := by
  induction l with
  | nil => simp [updFirst]
  | cons hd tl ih =>
      obtain ⟨k, v⟩ := hd
      by_cases hk : k = a <;> simp [updFirst, hk, ih, h]

theorem updFirst_comm {β : Type} (l : List (String × β)) (a b : String)
    (f g : β → β) (hab : a ≠ b) :
    updFirst (updFirst l a f) b g = updFirst (updFirst l b g) a f := by
  induction l with
  | nil => simp [updFirst]
  | cons hd tl ih =>
      obtain ⟨k, v⟩ := hd
      by_cases hka : k = a
      · subst hka
        simp [updFirst, hab]
      · by_cases hkb : k = b
        · subst hkb
          simp [updFirst, hka]
        · simp [updFirst, hka, hkb, ih]

theorem actualizarJugador_true (t : Inscritos) (j : String) (pts c : Int) :
    actualizarJugador t j pts c true = updFirst t j (fun s =>
      { s with partidosJugados := s.partidosJugados + 1,
               puntos := s.puntos + pts,
               carambolas := s.carambolas + c,
               victorias := s.victorias + 1 }) := by
  unfold actualizarJugador
  apply updFirst_congr
  intro x
  simp

theorem actualizarJugador_false (t : Inscritos) (j : String) (pts c : Int) :
    actualizarJugador t j pts c false = updFirst t j (fun s =>
      { s with partidosJugados := s.partidosJugados + 1,
               puntos := s.puntos + pts,
               carambolas := s.carambolas + c,
               derrotas := s.derrotas + 1 }) := by
  unfold actualizarJugador
  apply updFirst_congr
  intro x
  simp

theorem zeroedDe_updFirst (l : Inscritos) (a : String) (f : TStats → TStats) :
    zeroedDe (updFirst l a f) = zeroedDe l := by
  induction l with
  | nil => simp [updFirst]
  | cons hd tl ih =>
      obtain ⟨k, v⟩ := hd
      by_cases hk : k = a
      · simp [updFirst, hk, zeroedDe]
      · simp only [updFirst, hk, if_false, ite_false, zeroedDe, List.map_cons]
        simpa [zeroedDe] using ih

theorem zeroedDe_zeroRoster (ids : List String) :
    zeroedDe (zeroRoster ids) = zeroRoster ids := by
  simp [zeroRoster, zeroedDe, List.map_map]

theorem zeroedDe_registrarManual (t : Inscritos) (hist : List PartidaTorneo)
    (req : SolicitudManual) :
    zeroedDe (registrarManual t hist req).2.1 = zeroedDe t := by
  unfold registrarManual
  split_ifs
  · rfl
  · rfl
  · dsimp only
    split <;> simp [actualizarJugador, zeroedDe_updFirst]

theorem hasKey_registrarManual (t : Inscritos) (hist : List PartidaTorneo)
    (req : SolicitudManual) (k : String) :
    hasKey (registrarManual t hist req).2.1 k = hasKey t k := by
  unfold registrarManual
  split_ifs
  · rfl
  · rfl
  · dsimp only
    split <;> simp [actualizarJugador, hasKey_updFirst]

/-- One valid, tie-free, both-players-enrolled submission: the mobile route
accepts it, appends exactly one history record, and replaying that record
with the recalculation step reproduces the incremental stats update. -/
theorem manual_step_eq (t : Inscritos) (hist : List PartidaTorneo)
    (req : SolicitudManual) (h12 : req.jugador1Id ≠ req.jugador2Id)
    (htid : req.torneoId ≠ "") (h1e : req.jugador1Id ≠ "") (h2e : req.jugador2Id ≠ "")
    (h1k : hasKey t req.jugador1Id = true) (h2k : hasKey t req.jugador2Id = true)
    (hne : jsParseOrZero req.puntaje1 ≠ jsParseOrZero req.puntaje2) :
    (registrarManual t hist req).1 = .ok ∧
    ∃ nueva : PartidaTorneo,
      (registrarManual t hist req).2.2 = hist ++ [nueva] ∧
      recalcStep t nueva = (registrarManual t hist req).2.1 := by
  by_cases hp : jsParseOrZero req.puntaje2 < jsParseOrZero req.puntaje1
  · refine ⟨by simp [registrarManual, h12, htid, h1e, h2e, hp],
      ⟨⟨req.jugador1Id, req.jugador2Id, jsParseOrZero req.puntaje1,
        jsParseOrZero req.puntaje2, some req.jugador1Id⟩, ?_, ?_⟩⟩
    · simp [registrarManual, h12, htid, h1e, h2e, hp]
    · simp only [registrarManual, h12, htid, h1e, h2e, hp, if_neg, if_pos,
        ite_false, ite_true]
      simp [registrarManual, recalcStep, h12, htid, h1e, h2e, hp, h1k, h2k,
        actualizarJugador_true, actualizarJugador_false, Ne.symm h12]
  · have hq : jsParseOrZero req.puntaje1 < jsParseOrZero req.puntaje2 := by
      rcases lt_trichotomy (jsParseOrZero req.puntaje1) (jsParseOrZero req.puntaje2)
        with h | h | h
      · exact h
      · exact absurd h hne
      · exact absurd h hp
    refine ⟨by simp [registrarManual, h12, htid, h1e, h2e, hp, hq],
      ⟨⟨req.jugador1Id, req.jugador2Id, jsParseOrZero req.puntaje1,
        jsParseOrZero req.puntaje2, some req.jugador2Id⟩, ?_, ?_⟩⟩
    · simp [registrarManual, h12, htid, h1e, h2e, hp, hq]
    · simp [registrarManual, recalcStep, h12, htid, h1e, h2e, hp, hq, h1k, h2k,
        actualizarJugador_true, actualizarJugador_false, Ne.symm h12]
      rw [updFirst_comm _ _ _ _ _ (Ne.symm h12)]

/-- Invariant induction: as long as every submission is between distinct,
enrolled players and is not a tie, replaying the accumulated history from
zeroed rosters reproduces the incrementally maintained stats. -/
theorem runManual_recalc_inv (subs : List SolicitudManual) :
    ∀ (t : Inscritos) (hist : List PartidaTorneo),
      (∀ req ∈ subs, req.jugador1Id ≠ req.jugador2Id ∧ req.torneoId ≠ "" ∧
          req.jugador1Id ≠ "" ∧ req.jugador2Id ≠ "" ∧
          hasKey t req.jugador1Id = true ∧ hasKey t req.jugador2Id = true ∧
          jsParseOrZero req.puntaje1 ≠ jsParseOrZero req.puntaje2) →
      recalcStats t hist = t →
      recalcStats (runManual (t, hist) subs).1 (runManual (t, hist) subs).2
        = (runManual (t, hist) subs).1 := by
  induction subs with
  | nil => intro t hist _ hinv; simpa [runManual] using hinv
  | cons req rest ih =>
      intro t hist hall hinv
      obtain ⟨h12, htid, h1e, h2e, h1k, h2k, hne⟩ := hall req (List.mem_cons_self _ _)
      obtain ⟨hok, nueva, hhist, hstep⟩ :=
        manual_step_eq t hist req h12 htid h1e h2e h1k h2k hne
      have hrun : runManual (t, hist) (req :: rest) =
          runManual ((registrarManual t hist req).2.1, (registrarManual t hist req).2.2)
            rest := by
        simp [runManual]
      rw [hrun]
      apply ih
      · intro r hr
        obtain ⟨a1, a2, a3, a4, a5, a6, a7⟩ := hall r (List.mem_cons_of_mem _ hr)
        exact ⟨a1, a2, a3, a4, by rw [hasKey_registrarManual]; exact a5,
               by rw [hasKey_registrarManual]; exact a6, a7⟩
      · rw [hhist]
        unfold recalcStats
        rw [List.foldl_append]
        simp only [List.foldl_cons, List.foldl_nil]
        rw [zeroedDe_registrarManual]
        rw [show List.foldl recalcStep (zeroedDe t) hist = t from hinv, hstep]

/-- C10 (amended): starting from a tournament whose enrolled players have
zeroed stats, for every sequence of mobile-API submissions between
distinct, enrolled players with non-empty ids and unequal parsed scores,
the per-player stats obtained by the admin recalculation replaying the
stored history equal the stats maintained incrementally by the recording
route.  (Both restrictions are needed: tied submissions and submissions
involving a non-enrolled player each break the equivalence — see the
counterexample.) -/
theorem recalc_equiv_no_ties (roster : List String) (subs : List SolicitudManual)
    (hall : ∀ req ∈ subs, req.jugador1Id ≠ req.jugador2Id ∧ req.torneoId ≠ "" ∧
        req.jugador1Id ≠ "" ∧ req.jugador2Id ≠ "" ∧
        hasKey (zeroRoster roster) req.jugador1Id = true ∧
        hasKey (zeroRoster roster) req.jugador2Id = true ∧
        jsParseOrZero req.puntaje1 ≠ jsParseOrZero req.puntaje2) :
    recalcStats (runManual (zeroRoster roster, []) subs).1
        (runManual (zeroRoster roster, []) subs).2
      = (runManual (zeroRoster roster, []) subs).1 := by
  apply runManual_recalc_inv subs (zeroRoster roster) [] hall
  simp [recalcStats, zeroedDe_zeroRoster]

/-- C10 counterexample, two independent divergences of the recorded claim.
First, one tied match (5-5) between two enrolled players: the recording
route grants each player 1 point, 1 game and 1 loss, but the recalculation
route skips tied records, so replaying the history yields different
(all-zero) stats.  Second, one match between an enrolled and a non-enrolled
player: the route records it and each positional update filters per player,
so the enrolled winner's stats are incremented, while the recalculation's
both-players-present guard skips the match entirely, leaving the enrolled
player's replayed stats at zero. -/
theorem recalc_divergence_cex :
    (recalcStats (runManual (zeroRoster ["A", "B"], [])
          [⟨"T", "A", "B", .num 5, .num 5⟩]).1
        (runManual (zeroRoster ["A", "B"], []) [⟨"T", "A", "B", .num 5, .num 5⟩]).2
      ≠ (runManual (zeroRoster ["A", "B"], []) [⟨"T", "A", "B", .num 5, .num 5⟩]).1) ∧
    ((registrarManual (zeroRoster ["A"]) [] ⟨"T", "A", "B", .num 7, .num 2⟩).1 = .ok ∧
     recalcStats (registrarManual (zeroRoster ["A"]) [] ⟨"T", "A", "B", .num 7, .num 2⟩).2.1
        (registrarManual (zeroRoster ["A"]) [] ⟨"T", "A", "B", .num 7, .num 2⟩).2.2
      ≠ (registrarManual (zeroRoster ["A"]) [] ⟨"T", "A", "B", .num 7, .num 2⟩).2.1) := by
  decide

theorem recalc_equiv_no_ties_witness :
    recalcStats (runManual (zeroRoster ["A", "B"], [])
          [⟨"T", "A", "B", .num 7, .num 2⟩]).1
        (runManual (zeroRoster ["A", "B"], []) [⟨"T", "A", "B", .num 7, .num 2⟩]).2
      = (runManual (zeroRoster ["A", "B"], []) [⟨"T", "A", "B", .num 7, .num 2⟩]).1 := by
  apply recalc_equiv_no_ties
  intro req hreq
  simp only [List.mem_singleton] at hreq
  subst hreq
  exact ⟨by decide, by decide, by decide, by decide, by decide, by decide, by decide⟩

end Torneo
